import Mathlib

/-!
Verification of the richter network layer (src/client.rs, src/net/mod.rs)
against its natural-language specification.

Machine integers are embedded as `Nat`/`Int` with explicit wrapping,
saturation and two's-complement reinterpretation where the Rust code
performs them.  The `f32` values appearing in the quantization primitives
are embedded as `ℚ`: every finite `f32` is a rational number, and every
floating-point operation performed by the code on the inputs considered in
the theorems below (multiplication/division by the powers of two 8 and
256, multiplication of an integer of magnitude at most 46080 by the
exactly representable constant 360/256, truncating casts between floats
and machine integers) is exact on those inputs, so the rational model
computes the very same values as the `f32` code.  Byte streams are
embedded as `List Nat` (each entry one octet), and fallible reads return
`Except` values mirroring `Result<_, NetError>`.
-/

/-- Rust integer division `/`: truncation toward zero.  All divisors used
in this development are positive. -/
def rustDiv (a b : ℤ) : ℤ := if 0 ≤ a then a / b else -((-a) / b)

/-- Rust `as` cast from a float to a machine integer truncates toward
zero; on a rational `v` this is `num/den` truncated toward zero. -/
def ratTrunc (v : ℚ) : ℤ := rustDiv v.num (v.den : ℤ)

/-- Rust `as i16` on an out-of-range float value saturates; this models
the saturation step applied after `ratTrunc`. -/
def satI16 (n : ℤ) : ℤ := max (-32768) (min 32767 n)

/-- Rust `as i32` saturation for float-to-int casts. -/
def satI32 (n : ℤ) : ℤ := max (-2147483648) (min 2147483647 n)

/-- Wrapping of a mathematical integer into the `i32` range
(two's-complement overflow semantics of release-mode Rust arithmetic). -/
def wrapI32 (m : ℤ) : ℤ := (m + 2147483648) % 4294967296 - 2147483648

/-- Wrapping of a mathematical integer into the `i16` range. -/
def wrapI16 (m : ℤ) : ℤ := (m + 32768) % 65536 - 32768

/-- Reinterpret an `i16` value as its `u16` bit pattern (the value
actually placed on the wire). -/
def toU16 (i : ℤ) : ℕ := (i % 65536).toNat

/-- Little-endian byte serialization of an `i16` (as done by
`write_i16::<LittleEndian>`). -/
def i16leBytes (i : ℤ) : List ℕ := [toU16 i % 256, toU16 i / 256]

/-- Reinterpret a `u16` bit pattern (two little-endian bytes already
combined) as the signed `i16` it denotes. -/
def toSigned16 (n : ℕ) : ℤ := if n % 65536 < 32768 then (n % 65536 : ℤ) else (n % 65536 : ℤ) - 65536

/-- Reinterpret a byte as the signed `i8` it denotes (`read_i8`). -/
def i8OfByte (b : ℕ) : ℤ := if b % 256 < 128 then (b % 256 : ℤ) else (b % 256 : ℤ) - 256

/-- `NetError` from src/net/mod.rs.  The `invalidData` variant is matched
on by `Client::connect` in src/client.rs (the pruned copy of net/mod.rs
omits it); `io` abstracts `NetError::Io(_)`, whose payload the claims
never inspect. -/
inductive NetError where
  | io : NetError
  | invalidData : String → NetError
  | invalidRequest : Nat → NetError
  | invalidResponse : Nat → NetError
  | other : String → NetError
deriving DecidableEq

/-- Read one byte from the cursor (`read_u8`); end of input is an I/O
error (byteorder's `UnexpectedEof`). -/
def readU8 : List ℕ → Except NetError (ℕ × List ℕ)
  | [] => .error .io
  | b :: rest => .ok (b, rest)

/-- Read a little-endian `i16` from the cursor (`read_i16::<LittleEndian>`). -/
def readI16le (bytes : List ℕ) : Except NetError (ℤ × List ℕ) :=
  match readU8 bytes with
  | .error e => .error e
  | .ok (b0, r0) =>
    match readU8 r0 with
    | .error e => .error e
    | .ok (b1, r1) => .ok (toSigned16 (b0 + 256 * b1), r1)

/-- Quantized coordinate encoding, from `write_coord` in src/net/mod.rs:
`writer.write_i16::<LittleEndian>((coord * 8.0) as i16)`. -/
def write_coord (v : ℚ) : List ℕ := i16leBytes (satI16 (ratTrunc (v * 8)))

/-- Quantized coordinate decoding, from `read_coord` in src/net/mod.rs:
`reader.read_i16::<LittleEndian>()? as f32 / 8.0`. -/
def read_coord (bytes : List ℕ) : Except NetError (ℚ × List ℕ) :=
  match readI16le bytes with
  | .error e => .error e
  | .ok (s, rest) => .ok ((s : ℚ) / 8, rest)

/-- Quantized angle encoding, from `write_angle` in src/net/mod.rs:
`writer.write_u8(((angle.0 as i32 * 256 / 360) & 0xFF) as u8)`.  Note the
cast to `i32` happens before the scaling; `& 0xFF` of an `i32` is its
nonnegative residue modulo 256. -/
def write_angle (v : ℚ) : List ℕ :=
  [((rustDiv (wrapI32 (satI32 (ratTrunc v) * 256)) 360) % 256).toNat]

/-- Quantized angle decoding, from `read_angle` in src/net/mod.rs:
`reader.read_i8()? as f32 * (360.0 / 256.0)`. -/
def read_angle (bytes : List ℕ) : Except NetError (ℚ × List ℕ) :=
  match readU8 bytes with
  | .error e => .error e
  | .ok (b, rest) => .ok ((i8OfByte b : ℚ) * (360 / 256), rest)

/-- `ServerCmdSound` from src/net/mod.rs.  `volume`/`attenuation` are
`Option<u8>`, `entity_id` is `u16`, `channel` and `sound_id` are `u8`,
`position` is `Vector3<f32>` (embedded as a rational triple). -/
structure ServerCmdSound where
  volume : Option ℕ
  attenuation : Option ℕ
  entity_id : ℕ
  channel : ℕ
  sound_id : ℕ
  position : ℚ × ℚ × ℚ
deriving DecidableEq

/-- The flags byte built by `ServerCmdSound::write_content`: starts empty,
`|= SoundFlags::VOLUME` (bit 0) if `volume.is_some()`, and
`|= SoundFlags::ATTENUATION` (bit 1) if `attenuation.is_some()`.  OR of
the disjoint bits 1 and 2 is addition. -/
def soundFlags (c : ServerCmdSound) : ℕ :=
  (if c.volume.isSome then 1 else 0) + (if c.attenuation.isSome then 2 else 0)

/-- The combined entity/channel field of `ServerCmdSound::write_content`:
`(self.entity_id as i16) << 3 | self.channel as i16 & 0b111`.  The
`u16 → i16` cast is a two's-complement reinterpretation (`toSigned16`);
`<< 3` multiplies by 8 with wrapping in the `i16` range (`wrapI16`);
the shifted value has its three low bits clear, so `|` with
`channel & 0b111` (which is `channel % 8`, as `channel : u8` is
nonnegative) is addition. -/
def entChannel (c : ServerCmdSound) : ℤ :=
  wrapI16 (toSigned16 c.entity_id * 8) + ((c.channel % 8 : ℕ) : ℤ)

/-- `ServerCmdSound::write_content` from src/net/mod.rs: flags byte, the
present optional bytes in bit order, the combined entity/channel `i16`,
the sound id byte, then the three quantized coordinates. -/
def ServerCmdSound.write_content (c : ServerCmdSound) : List ℕ :=
  [soundFlags c]
    ++ (match c.volume with | some v => [v] | none => [])
    ++ (match c.attenuation with | some a => [a] | none => [])
    ++ i16leBytes (entChannel c)
    ++ [c.sound_id]
    ++ write_coord c.position.1
    ++ write_coord c.position.2.1
    ++ write_coord c.position.2.2

/-- Conditional read of one optional byte field, the
`match flags.contains(...) { true => Some(read_u8?), false => None }`
idiom of `ServerCmdSound::read_content`. -/
def readOpt (present : Bool) (bytes : List ℕ) : Except NetError (Option ℕ × List ℕ) :=
  if present then
    match readU8 bytes with
    | .error e => .error e
    | .ok (b, rest) => .ok (some b, rest)
  else .ok (none, bytes)

/-- `ServerCmdSound::read_content` from src/net/mod.rs.  `SoundFlags::
from_bits` fails exactly when a bit outside VOLUME|ATTENUATION|LOOPING
(value ≥ 8 for a byte) is set; bit 0 of the flags is `flags % 2`, bit 1
is `flags / 2 % 2`.  `entity_channel >> 3` is an arithmetic shift of an
`i16`, i.e. division by 8 rounding toward negative infinity (`Int./`),
and `as u16` takes the nonnegative residue modulo 65536;
`entity_channel & 0b111` is the nonnegative residue modulo 8. -/
def ServerCmdSound.read_content (bytes : List ℕ) : Except NetError (ServerCmdSound × List ℕ) :=
  match readU8 bytes with
  | .error e => .error e
  | .ok (flags_bits, r1) =>
    if 8 ≤ flags_bits then .error (.other "Invalid value for SoundFlags") else
    match readOpt (flags_bits % 2 == 1) r1 with
    | .error e => .error e
    | .ok (volume, r2) =>
      match readOpt (flags_bits / 2 % 2 == 1) r2 with
      | .error e => .error e
      | .ok (attenuation, r3) =>
        match readI16le r3 with
        | .error e => .error e
        | .ok (entity_channel, r4) =>
          match readU8 r4 with
          | .error e => .error e
          | .ok (sound_id, r5) =>
            match read_coord r5 with
            | .error e => .error e
            | .ok (x, r6) =>
              match read_coord r6 with
              | .error e => .error e
              | .ok (y, r7) =>
                match read_coord r7 with
                | .error e => .error e
                | .ok (z, r8) =>
                  .ok ({ volume := volume, attenuation := attenuation,
                         entity_id := ((entity_channel / 8) % 65536).toNat,
                         channel := (entity_channel % 8).toNat,
                         sound_id := sound_id,
                         position := (x, y, z) }, r8)

/-- Modelled from the spec: `util::read_cstring` is used by the codec but
its module is not under src/.  Per the spec, text fields are
NUL-terminated byte strings and decoding reads until a zero byte, with
end-of-input before a terminator being a decode failure.  Returns the
bytes before the NUL and the remaining input. -/
def read_cstring : List ℕ → Except String (List ℕ × List ℕ)
  | [] => .error "end of input before NUL terminator"
  | 0 :: rest => .ok ([], rest)
  | b :: rest =>
    match read_cstring rest with
    | .error e => .error e
    | .ok (s, r) => .ok (b :: s, r)

/-- `ServerCmdPrint` from src/net/mod.rs (text embedded as its byte string). -/
structure ServerCmdPrint where
  text : List ℕ
deriving DecidableEq

/-- `ServerCmdPrint::read_content` from src/net/mod.rs: a failed
`read_cstring` is converted into an error return
(`NetError::with_msg(format!("{}", e))`). -/
def ServerCmdPrint.read_content (bytes : List ℕ) : Except NetError (ServerCmdPrint × List ℕ) :=
  match read_cstring bytes with
  | .error e => .error (.other e)
  | .ok (t, rest) => .ok ({ text := t }, rest)

/-- Outcome of a decode step that may panic: `ok` carries the value and
the remaining input, `err` a returned error, and `panicked` models a
Rust panic (`unwrap` on an `Err`). -/
inductive DecodeOutcome (α : Type) where
  | ok : α → List ℕ → DecodeOutcome α
  | err : NetError → DecodeOutcome α
  | panicked : DecodeOutcome α
deriving DecidableEq

lemma read_cstring_length : ∀ (bytes s rest : List ℕ),
    read_cstring bytes = .ok (s, rest) → rest.length < bytes.length := by
  intro bytes
  induction bytes with
  | nil => intro s rest h; exact absurd h (by simp [read_cstring])
  | cons b tail ih =>
    intro s rest h
    cases b with
    | zero =>
      simp only [read_cstring, Except.ok.injEq, Prod.mk.injEq] at h
      obtain ⟨h1, h2⟩ := h
      subst h2
      simp
    | succ n =>
      simp only [read_cstring] at h
      cases hrec : read_cstring tail with
      | error e =>
        rw [hrec] at h
        simp at h
      | ok pr =>
        obtain ⟨s0, r0⟩ := pr
        rw [hrec] at h
        simp only [Except.ok.injEq, Prod.mk.injEq] at h
        obtain ⟨h1, h2⟩ := h
        subst h2
        have hlt := ih s0 r0 hrec
        simp only [List.length_cons]
        omega

/-- The precache-name-list loop of `ServerCmdServerInfo::read_content`:
`loop { let name = util::read_cstring(reader).unwrap(); if
name.is_empty() { break; } list.push(name); }` — note the `.unwrap()`,
which panics when `read_cstring` fails. -/
def readStringList (bytes : List ℕ) : DecodeOutcome (List (List ℕ)) :=
  match h : read_cstring bytes with
  | .error _ => .panicked
  | .ok ([], rest) => .ok [] rest
  | .ok (b :: s, rest) =>
    match readStringList rest with
    | .ok names r => .ok ((b :: s) :: names) r
    | .err e => .err e
    | .panicked => .panicked
termination_by bytes.length
decreasing_by exact read_cstring_length bytes (b :: s) rest h

/-- Reinterpret a four-byte little-endian value (< 2^32) as a signed `i32`. -/
def toSigned32 (n : ℕ) : ℤ :=
  if n % 4294967296 < 2147483648 then (n % 4294967296 : ℤ)
  else (n % 4294967296 : ℤ) - 4294967296

/-- Read a little-endian `i32` from the cursor (`read_i32::<LittleEndian>`). -/
def readI32le (bytes : List ℕ) : Except NetError (ℤ × List ℕ) :=
  match readU8 bytes with
  | .error e => .error e
  | .ok (b0, r0) =>
    match readU8 r0 with
    | .error e => .error e
    | .ok (b1, r1) =>
      match readU8 r1 with
      | .error e => .error e
      | .ok (b2, r2) =>
        match readU8 r2 with
        | .error e => .error e
        | .ok (b3, r3) =>
          .ok (toSigned32 (b0 + 256 * b1 + 65536 * b2 + 16777216 * b3), r3)

/-- `ServerCmdServerInfo` from src/net/mod.rs (strings as byte lists). -/
structure ServerCmdServerInfo where
  protocol_version : ℤ
  max_clients : ℕ
  game_type : ℕ
  model_precache : List (List ℕ)
  sound_precache : List (List ℕ)
deriving DecidableEq

/-- `ServerCmdServerInfo::read_content` from src/net/mod.rs: protocol
version (`i32`), max clients (`u8`), game type (`u8`), then the two
precache name lists, whose loops `.unwrap()` the `read_cstring` result
and hence panic on a truncated input. -/
def ServerCmdServerInfo.read_content (bytes : List ℕ) : DecodeOutcome ServerCmdServerInfo :=
  match readI32le bytes with
  | .error e => .err e
  | .ok (protocol_version, r1) =>
    match readU8 r1 with
    | .error e => .err e
    | .ok (max_clients, r2) =>
      match readU8 r2 with
      | .error e => .err e
      | .ok (game_type, r3) =>
        match readStringList r3 with
        | .panicked => .panicked
        | .err e => .err e
        | .ok model_precache r4 =>
          match readStringList r4 with
          | .panicked => .panicked
          | .err e => .err e
          | .ok sound_precache r5 =>
            .ok { protocol_version := protocol_version, max_clients := max_clients,
                  game_type := game_type, model_precache := model_precache,
                  sound_precache := sound_precache } r5

/-- `ClientError` from src/client.rs: `Io`, `Net(NetError)`, `Other(String)`.
The `io` payload is never inspected by the claims. -/
inductive ClientError where
  | io : ClientError
  | net : NetError → ClientError
  | other : String → ClientError
deriving DecidableEq

/-- `PROTOCOL_VERSION` from src/net/mod.rs. -/
def PROTOCOL_VERSION : ℤ := 15

/-- Outcome of `Client::update_server_info`: the function either returns
an error or panics; the post-version-check body loads assets via the
external pak collaborator and currently ends in `unimplemented!()`,
so no success value is ever returned.  It is modelled as `panicked`,
which the protocol-mismatch path never reaches. -/
inductive UpdateOutcome where
  | err : ClientError → UpdateOutcome
  | panicked : UpdateOutcome
deriving DecidableEq

/-- The protocol-version guard of `Client::update_server_info` in
src/client.rs: a version different from `PROTOCOL_VERSION` produces
`ClientError::with_msg(format!("Incompatible protocol version (got {},
should be {})", got, expected))`.  The post-check body (asset loading
against the external pak, ending in `unimplemented!()`) is collapsed
into the `panicked` outcome, which is not reachable on the mismatch
path the claims are about. -/
def update_server_info (cmd : ServerCmdServerInfo) : UpdateOutcome :=
  if cmd.protocol_version ≠ PROTOCOL_VERSION then
    .err (.other ("Incompatible protocol version (got " ++ toString cmd.protocol_version ++
      ", should be " ++ toString PROTOCOL_VERSION ++ ")"))
  else .panicked

/-- A socket address: host part (opaque) and port, with `set_port`
modelled as replacing the `port` field. -/
structure Addr where
  host : ℕ
  port : ℕ
deriving DecidableEq

/-- Modelled from the spec: the handshake `Response` of the missing
net/connect.rs, as used in `Client::connect`: `Accept` carries an `i32`
port, `Reject` a human-readable message; `unhandled` stands for every
other response variant, which `Client::connect` treats opaquely in its
catch-all arm. -/
inductive Response where
  | accept : ℤ → Response
  | reject : String → Response
  | unhandled : Response
deriving DecidableEq

/-- Result of one `recv_response` call during the handshake (modelled
from the spec and the match in `Client::connect`): `Ok(None)` is a
timeout, `Ok(Some((resp, remote)))` a parsed response with its source
address, `Err(NetError::InvalidData(_))` a malformed datagram, any other
error a fatal transport failure. -/
abbrev RecvResult := Except NetError (Option (Response × Addr))

/-- `QSocket`-backed session as far as the claims examine it: the remote
address it is bound to. -/
structure Session where
  remote : Addr
deriving DecidableEq

/-- `MAX_CONNECT_ATTEMPTS` from src/client.rs. -/
def MAX_CONNECT_ATTEMPTS : ℕ := 3

/-- The retry loop of `Client::connect` in src/client.rs, iterated over
the remaining attempt indices (`for attempt in 0..MAX_CONNECT_ATTEMPTS`).
`script` models the environment: `script i` is what `recv_response`
returns on attempt `i`.  Returns the loop outcome (`.ok none` when the
loop finished without accepting a response, `.ok (some resp)` when a
response from the target address was accepted, `.error e` on a fatal
transport error) together with the number of Connect requests sent. -/
def connectLoop (target : Addr) (script : ℕ → RecvResult) :
    List ℕ → Except ClientError (Option Response) × ℕ
  | [] => (.ok none, 0)
  | i :: rest =>
    match script i with
    | .error (NetError.invalidData _) =>
      let r := connectLoop target script rest
      (r.1, r.2 + 1)
    | .error e => (.error (.net e), 1)
    | .ok none =>
      let r := connectLoop target script rest
      (r.1, r.2 + 1)
    | .ok (some (resp, remote)) =>
      if remote = target then (.ok (some resp), 1)
      else
        let r := connectLoop target script rest
        (r.1, r.2 + 1)

/-- `Client::connect` from src/client.rs, after the retry loop: no
response is the recoverable "No response" failure; an `Accept` port is
validated against the `u16` range [0, 65535] and on success the remote
address is rebound to the announced port; a `Reject` fails with
`"Connection rejected: "` followed by the server-supplied message; any
other response variant fails with `"Invalid connect response"`.  The
second component is the number of Connect requests sent. -/
def Client.connect (target : Addr) (script : ℕ → RecvResult) :
    Except ClientError Session × ℕ :=
  let r := connectLoop target script (List.range MAX_CONNECT_ATTEMPTS)
  match r.1 with
  | .error e => (.error e, r.2)
  | .ok none => (.error (.other "No response"), r.2)
  | .ok (some (Response.accept p)) =>
    if p < 0 ∨ 65535 < p then (.error (.other "Invalid port number"), r.2)
    else (.ok { remote := { host := target.host, port := p.toNat } }, r.2)
  | .ok (some (Response.reject m)) =>
    (.error (.other ("Connection rejected: " ++ m)), r.2)
  | .ok (some Response.unhandled) => (.error (.other "Invalid connect response"), r.2)

/-- A `recv_response` outcome that does not stop the retry loop: a
timeout, a malformed datagram (logged and retried), or a well-formed
response whose source address differs from the target. -/
def NonStop (target : Addr) (r : RecvResult) : Prop :=
  r = .ok none ∨ (∃ m, r = .error (.invalidData m)) ∨
    (∃ resp a, a ≠ target ∧ r = .ok (some (resp, a)))

lemma ratTrunc_eq_floor (v : ℚ) (h : 0 ≤ v) : ratTrunc v = ⌊v⌋ := by
  have hnum : 0 ≤ v.num := Rat.num_nonneg.mpr h
  have hfl : ⌊v⌋ = v.num / (v.den : ℤ) := by
    conv_lhs => rw [← Rat.num_div_den v]
    exact Rat.floor_intCast_div_natCast _ _
  rw [ratTrunc, rustDiv, if_pos hnum, hfl]

lemma ratTrunc_eq_ceil (v : ℚ) (h : v < 0) : ratTrunc v = ⌈v⌉ := by
  have hnum : v.num < 0 := Rat.num_neg.mpr h
  have hceil : ⌈v⌉ = -⌊-v⌋ := by
    rw [Int.floor_neg]
    ring
  have hfl : ⌊-v⌋ = (-v.num) / (v.den : ℤ) := by
    have h1 : ⌊-v⌋ = (-v).num / ((-v).den : ℤ) := by
      conv_lhs => rw [← Rat.num_div_den (-v)]
      exact Rat.floor_intCast_div_natCast _ _
    rw [h1, Rat.num_neg_eq_neg_num, Rat.den_neg_eq_den]
  rw [ratTrunc, rustDiv, if_neg (by omega), hceil, hfl]

lemma ratTrunc_intCast (k : ℤ) : ratTrunc (k : ℚ) = k := by
  rcases le_or_lt 0 (k : ℚ) with h | h
  · rw [ratTrunc_eq_floor _ h, Int.floor_intCast]
  · rw [ratTrunc_eq_ceil _ h, Int.ceil_intCast]

lemma i16leBytes_readI16le (i : ℤ) (h1 : -32768 ≤ i) (h2 : i ≤ 32767) (rest : List ℕ) :
    readI16le (i16leBytes i ++ rest) = .ok (i, rest) := by
  have hu : toU16 i = (i % 65536).toNat := rfl
  have hmod : 0 ≤ i % 65536 ∧ i % 65536 < 65536 := ⟨Int.emod_nonneg i (by norm_num), Int.emod_lt_of_pos i (by norm_num)⟩
  simp only [i16leBytes, List.cons_append, List.nil_append, readI16le, readU8]
  have hval : toU16 i % 256 + 256 * (toU16 i / 256) = toU16 i := by omega
  rw [hval]
  have : toSigned16 (toU16 i) = i := by
    rw [toSigned16, hu]
    have htn : ((i % 65536).toNat : ℤ) = i % 65536 := Int.toNat_of_nonneg hmod.1
    split
    · omega
    · omega
  rw [this]

/-- C5: for every coordinate value `v` with `|v| < 4096` that is an exact
multiple of 1/8, `read_coord` applied to the output of `write_coord`
returns exactly `v` (and consumes exactly the two emitted bytes).  All
`f32` operations involved are exact on such inputs, so the rational
embedding is faithful. -/
theorem coord_roundtrip_exact (v : ℚ) (hrange : |v| < 4096) (hgran : ∃ k : ℤ, v = k / 8) :
    read_coord (write_coord v) = .ok (v, []) := by
  obtain ⟨k, hk⟩ := hgran
  have hv8 : v * 8 = (k : ℚ) := by rw [hk]; ring
  have hkband : -32768 < (k : ℚ) ∧ (k : ℚ) < 32768 := by
    rw [← hv8]
    rw [abs_lt] at hrange
    constructor <;> nlinarith [hrange.1, hrange.2]
  have hkb : -32768 ≤ k ∧ k ≤ 32767 := by
    have h1 : (-32768 : ℤ) < k := by exact_mod_cast hkband.1
    have h2 : k < (32768 : ℤ) := by exact_mod_cast hkband.2
    omega
  have htr : ratTrunc (v * 8) = k := by rw [hv8, ratTrunc_intCast]
  have hsat : satI16 (ratTrunc (v * 8)) = k := by
    rw [htr, satI16]
    omega
  rw [write_coord, hsat]
  have hrt := i16leBytes_readI16le k hkb.1 hkb.2 []
  rw [List.append_nil] at hrt
  rw [read_coord, hrt]
  show Except.ok ((k : ℚ) / 8, ([] : List ℕ)) = Except.ok (v, [])
  rw [hk]

/-- Witness for C5 at the concrete input v = 3/8. -/
theorem coord_roundtrip_exact_witness :
    read_coord (write_coord (3 / 8 : ℚ)) = .ok ((3 / 8 : ℚ), []) :=
  coord_roundtrip_exact (3 / 8) (by norm_num [abs]) ⟨3, by norm_num⟩

lemma i8OfByte_emod (t : ℤ) (h1 : -128 ≤ t) (h2 : t ≤ 127) :
    i8OfByte ((t % 256).toNat) = t := by
  rw [i8OfByte]
  split_ifs <;> omega

/-- C6 counterexample: at the angle v = 9/2 degrees (exactly representable
in `f32`), the round trip through `write_angle`/`read_angle` yields 45/16
degrees, an error of 27/16, which exceeds the claimed bound 360/256.
The cause: `write_angle` truncates the angle to an integer before scaling
by 256/360 (`angle.0 as i32 * 256 / 360`), so both the fractional part
and the integer-division remainder are lost. -/
theorem angle_roundtrip_counterexample :
    read_angle (write_angle (9 / 2 : ℚ)) = .ok ((45 / 16 : ℚ), []) ∧
    ¬(|(45 / 16 : ℚ) - 9 / 2| ≤ 360 / 256) := by
  constructor
  · have hnum : ((9 : ℚ) / 2).num = 9 := by norm_num
    have hden : ((9 : ℚ) / 2).den = 2 := by norm_num
    have htr : ratTrunc (9 / 2 : ℚ) = 4 := by
      rw [ratTrunc, hnum, hden]
      decide
    rw [write_angle, htr]
    have hbyte : ((rustDiv (wrapI32 (satI32 4 * 256)) 360) % 256).toNat = 2 := by decide
    rw [hbyte, read_angle]
    norm_num [readU8, i8OfByte]
  · rw [abs_sub_comm, abs_of_pos (by norm_num)]
    norm_num

/-- C6 amended: for angles v in [-180, 180) degrees (the aliasing-free
range of the signed byte encoding), the round-trip error of
`write_angle`/`read_angle` is strictly below 19/8 degrees.  The bound
19/8 = 1 + 352/256 accounts for the pre-scaling truncation of the angle
to an integer (loss < 1 degree) plus the worst integer-division remainder
(352/256 degrees); the spec's claimed bound 360/256 is refuted by
`angle_roundtrip_counterexample`. -/
theorem angle_roundtrip_bound (v : ℚ) (h1 : -180 ≤ v) (h2 : v < 180) :
    ∃ a, read_angle (write_angle v) = .ok (a, []) ∧ |a - v| < 19 / 8 := by
  rcases le_or_lt 0 v with hpos | hneg
  · set n := ⌊v⌋ with hn
    have htr : ratTrunc v = n := ratTrunc_eq_floor v hpos
    have hn0 : 0 ≤ n := Int.floor_nonneg.mpr hpos
    have hn179 : n ≤ 179 := by
      have hlt : ⌊v⌋ < (180 : ℤ) := Int.floor_lt.mpr (by exact_mod_cast h2)
      omega
    have hsat : satI32 n = n := by rw [satI32]; omega
    have hwrap : wrapI32 (n * 256) = n * 256 := by rw [wrapI32]; omega
    set t := rustDiv (n * 256) 360 with ht
    have htv : t = (n * 256) / 360 := by rw [ht, rustDiv, if_pos (by omega : (0:ℤ) ≤ n * 256)]
    have htb : 0 ≤ t ∧ t ≤ 127 := by rw [htv]; omega
    have hmod : t % 256 = t := by omega
    have hi8 : i8OfByte ((t % 256).toNat) = t := i8OfByte_emod t (by omega) (by omega)
    have hwa : write_angle v = [(t % 256).toNat] := by
      rw [write_angle, htr, hsat, hwrap, ← ht]
    refine ⟨(t : ℚ) * (360 / 256), ?_, ?_⟩
    · rw [hwa, read_angle]
      show Except.ok ((i8OfByte ((t % 256).toNat) : ℚ) * (360 / 256), []) = _
      rw [hi8]
    · have hr : 0 ≤ n * 256 - 360 * t ∧ n * 256 - 360 * t ≤ 352 := by rw [htv]; omega
      have hflo : (n : ℚ) ≤ v := Int.floor_le v
      have hfhi : v < (n : ℚ) + 1 := Int.lt_floor_add_one v
      have hcast : (360 : ℚ) * t = 256 * n - ((n * 256 - 360 * t : ℤ) : ℚ) := by push_cast; ring
      have hrl : (0 : ℚ) ≤ ((n * 256 - 360 * t : ℤ) : ℚ) := by exact_mod_cast hr.1
      have hru : ((n * 256 - 360 * t : ℤ) : ℚ) ≤ 352 := by exact_mod_cast hr.2
      rw [abs_lt]
      constructor <;> linarith
  · set n := ⌈v⌉ with hn
    have htr : ratTrunc v = n := ratTrunc_eq_ceil v hneg
    have hnle : n ≤ 0 := Int.ceil_le.mpr (by exact_mod_cast le_of_lt hneg)
    have hnge : -180 ≤ n := by
      have hc : v ≤ (n : ℚ) := Int.le_ceil v
      have : (-180 : ℚ) ≤ (n : ℚ) := le_trans h1 hc
      exact_mod_cast this
    have hsat : satI32 n = n := by rw [satI32]; omega
    have hwrap : wrapI32 (n * 256) = n * 256 := by rw [wrapI32]; omega
    set t := rustDiv (n * 256) 360 with ht
    have htv : t = if 0 ≤ n * 256 then (n * 256) / 360 else -((-(n * 256)) / 360) := by
      rw [ht, rustDiv]
    have htb : -128 ≤ t ∧ t ≤ 0 := by
      rw [htv]; split <;> omega
    have hr : -352 ≤ n * 256 - 360 * t ∧ n * 256 - 360 * t ≤ 0 := by
      rw [htv]; split <;> omega
    have hi8 : i8OfByte ((t % 256).toNat) = t := i8OfByte_emod t (by omega) (by omega)
    have hwa : write_angle v = [(t % 256).toNat] := by
      rw [write_angle, htr, hsat, hwrap, ← ht]
    refine ⟨(t : ℚ) * (360 / 256), ?_, ?_⟩
    · rw [hwa, read_angle]
      show Except.ok ((i8OfByte ((t % 256).toNat) : ℚ) * (360 / 256), []) = _
      rw [hi8]
    · have hclo : v ≤ (n : ℚ) := Int.le_ceil v
      have hchi : (n : ℚ) < v + 1 := Int.ceil_lt_add_one v
      have hcast : (360 : ℚ) * t = 256 * n - ((n * 256 - 360 * t : ℤ) : ℚ) := by push_cast; ring
      have hrl : (-352 : ℚ) ≤ ((n * 256 - 360 * t : ℤ) : ℚ) := by exact_mod_cast hr.1
      have hru : ((n * 256 - 360 * t : ℤ) : ℚ) ≤ 0 := by exact_mod_cast hr.2
      rw [abs_lt]
      constructor <;> linarith

/-- Witness for the amended C6 bound at the concrete input v = 9/2. -/
theorem angle_roundtrip_bound_witness :
    ∃ a, read_angle (write_angle (9 / 2 : ℚ)) = .ok (a, []) ∧ |a - 9 / 2| < 19 / 8 :=
  angle_roundtrip_bound (9 / 2) (by norm_num) (by norm_num)

lemma entChannel_bounds (c : ServerCmdSound) :
    -32768 ≤ entChannel c ∧ entChannel c ≤ 32767 := by
  simp only [entChannel, wrapI16]
  omega

lemma satI16_bounds (n : ℤ) : -32768 ≤ satI16 n ∧ satI16 n ≤ 32767 := by
  rw [satI16]
  omega

lemma read_coord_write_coord (v : ℚ) (rest : List ℕ) :
    read_coord (write_coord v ++ rest) =
      .ok (((satI16 (ratTrunc (v * 8)) : ℤ) : ℚ) / 8, rest) := by
  rw [write_coord, read_coord,
    i16leBytes_readI16le _ (satI16_bounds _).1 (satI16_bounds _).2]

lemma read_coord_write_coord_nil (v : ℚ) :
    read_coord (write_coord v) =
      .ok (((satI16 (ratTrunc (v * 8)) : ℤ) : ℚ) / 8, []) := by
  have h := read_coord_write_coord v []
  rwa [List.append_nil] at h

lemma sound_read_write (c : ServerCmdSound) :
    ServerCmdSound.read_content (ServerCmdSound.write_content c) =
      .ok ({ volume := c.volume, attenuation := c.attenuation,
             entity_id := ((entChannel c / 8) % 65536).toNat,
             channel := (entChannel c % 8).toNat,
             sound_id := c.sound_id,
             position := (((satI16 (ratTrunc (c.position.1 * 8)) : ℤ) : ℚ) / 8,
                          ((satI16 (ratTrunc (c.position.2.1 * 8)) : ℤ) : ℚ) / 8,
                          ((satI16 (ratTrunc (c.position.2.2 * 8)) : ℤ) : ℚ) / 8) }, []) := by
  obtain ⟨hlo, hhi⟩ := entChannel_bounds c
  rcases c with ⟨vol, att, e, ch, sid, ⟨x, y, z⟩⟩
  cases vol <;> cases att <;>
    simp [ServerCmdSound.write_content, ServerCmdSound.read_content, soundFlags, readU8, readOpt,
      i16leBytes_readI16le _ hlo hhi, read_coord_write_coord, read_coord_write_coord_nil,
      List.append_assoc]

/-- C4: encoding any `ServerCmdSound` with `write_content` and decoding
with `read_content` preserves the optional `volume` and `attenuation`
fields exactly (in particular presence round-trips and absent fields
decode to `none`, never to a zero-filled `some`), and the emitted flags
byte has the VOLUME bit (bit 0) and ATTENUATION bit (bit 1) set exactly
when the corresponding field is present. -/
theorem sound_optional_fields_roundtrip (c : ServerCmdSound) :
    ∃ d : ServerCmdSound,
      ServerCmdSound.read_content (ServerCmdSound.write_content c) = .ok (d, []) ∧
      d.volume = c.volume ∧ d.attenuation = c.attenuation ∧
      (d.volume.isSome ↔ c.volume.isSome) ∧
      (d.attenuation.isSome ↔ c.attenuation.isSome) ∧
      (ServerCmdSound.write_content c).head? = some (soundFlags c) ∧
      (soundFlags c % 2 = 1 ↔ c.volume.isSome = true) ∧
      (soundFlags c / 2 % 2 = 1 ↔ c.attenuation.isSome = true) := by
  refine ⟨_, sound_read_write c, rfl, rfl, Iff.rfl, Iff.rfl, ?_, ?_, ?_⟩
  · simp [ServerCmdSound.write_content]
  · cases hv : c.volume <;> cases ha : c.attenuation <;> simp [soundFlags, hv, ha]
  · cases hv : c.volume <;> cases ha : c.attenuation <;> simp [soundFlags, hv, ha]

/-- Concrete input refuting C10's claimed range: entity id 4096 (< 8192)
with channel 0. -/
def soundCounterexampleInput : ServerCmdSound :=
  { volume := none, attenuation := none, entity_id := 4096, channel := 0, sound_id := 0,
    position := (0, 0, 0) }

/-- C10 counterexample: for entity_id = 4096 (which is < 8192) and
channel = 0, encoding and decoding does NOT recover entity_id: the
16-bit packing `entity_id << 3` overflows the positive `i16` range at
4096 * 8 = 32768, the sign-extending arithmetic shift `>> 3` of the
reader then yields -4096, and the `as u16` cast turns that into 61440. -/
theorem sound_entity_roundtrip_counterexample :
    soundCounterexampleInput.entity_id = 4096 ∧
    soundCounterexampleInput.entity_id < 8192 ∧
    soundCounterexampleInput.channel < 8 ∧
    ∃ d : ServerCmdSound,
      ServerCmdSound.read_content (ServerCmdSound.write_content soundCounterexampleInput) =
        .ok (d, []) ∧
      d.entity_id = 61440 ∧ d.entity_id ≠ soundCounterexampleInput.entity_id := by
  refine ⟨rfl, by decide, by decide, _, sound_read_write _, ?_, ?_⟩
  · show ((entChannel soundCounterexampleInput / 8) % 65536).toNat = 61440
    decide
  · show ((entChannel soundCounterexampleInput / 8) % 65536).toNat ≠ 4096
    decide

/-- C10 amended: the sound command packs entity and channel into one
16-bit wire field congruent to `entity_id * 8 + (channel & 7)` modulo
2^16; the encode/decode round trip recovers `entity_id` and `channel`
exactly whenever `entity_id < 4096` (not 8192: see the counterexample)
and `channel < 8`; and every successfully decoded command has
`channel < 8`. -/
theorem sound_entity_channel_packing (c : ServerCmdSound) :
    (entChannel c % 65536 = ((c.entity_id * 8 + c.channel % 8) % 65536 : ℕ)) ∧
    (c.entity_id < 4096 → c.channel < 8 →
      ∃ d : ServerCmdSound,
        ServerCmdSound.read_content (ServerCmdSound.write_content c) = .ok (d, []) ∧
        d.entity_id = c.entity_id ∧ d.channel = c.channel) ∧
    (∀ bytes d rest, ServerCmdSound.read_content bytes = .ok (d, rest) → d.channel < 8) := by
  refine ⟨?_, ?_, ?_⟩
  · simp only [entChannel, wrapI16, toSigned16]
    split_ifs <;> push_cast <;> omega
  · intro he hch
    refine ⟨_, sound_read_write c, ?_, ?_⟩
    · show ((entChannel c / 8) % 65536).toNat = c.entity_id
      simp only [entChannel, wrapI16, toSigned16]
      split_ifs <;> omega
    · show (entChannel c % 8).toNat = c.channel
      simp only [entChannel, wrapI16, toSigned16]
      split_ifs <;> omega
  · intro bytes d rest h
    unfold ServerCmdSound.read_content at h
    repeat' split at h
    all_goals try exact Except.noConfusion h
    injection h with hp
    injection hp with h1 h2
    subst h1
    dsimp only
    omega

/-- Concrete in-range input for the C10 witness. -/
def soundWitnessInput : ServerCmdSound :=
  { volume := some 200, attenuation := none, entity_id := 123, channel := 5, sound_id := 9,
    position := (0, 0, 0) }

/-- Witness for the amended C10 at entity_id = 123, channel = 5. -/
theorem sound_entity_channel_packing_witness :
    ∃ d : ServerCmdSound,
      ServerCmdSound.read_content (ServerCmdSound.write_content soundWitnessInput) = .ok (d, []) ∧
      d.entity_id = soundWitnessInput.entity_id ∧ d.channel = soundWitnessInput.channel :=
  (sound_entity_channel_packing soundWitnessInput).2.1 (by decide) (by decide)

lemma readStringList_eq_panic (bytes : List ℕ) (e : String)
    (h : read_cstring bytes = .error e) : readStringList bytes = .panicked := by
  rw [readStringList]
  split
  · rfl
  · next heq => rw [h] at heq; exact absurd heq (by simp)
  · next heq => rw [h] at heq; exact absurd heq (by simp)

/-- A server-info payload truncated inside the model-precache list:
protocol version 15, max clients 8, game type 0, then the bytes "ab"
with no NUL terminator. -/
def truncatedServerInfoInput : List ℕ := [15, 0, 0, 0, 8, 0, 97, 98]

/-- C7 (code bug): when the input ends before a NUL terminator,
`ServerCmdServerInfo::read_content` PANICS (its precache-list loops call
`util::read_cstring(reader).unwrap()`) instead of returning a
decode-failure error as the spec requires, and as
`ServerCmdPrint::read_content` does on the same truncation. -/
theorem serverinfo_truncated_panics :
    ServerCmdServerInfo.read_content truncatedServerInfoInput = .panicked ∧
    ServerCmdPrint.read_content [97, 98] =
      .error (.other "end of input before NUL terminator") := by
  constructor
  · have hcs : read_cstring [97, 98] = .error "end of input before NUL terminator" := by
      rfl
    have h1 : readStringList [97, 98] = .panicked := readStringList_eq_panic _ _ hcs
    show ServerCmdServerInfo.read_content [15, 0, 0, 0, 8, 0, 97, 98] = .panicked
    simp [ServerCmdServerInfo.read_content, readI32le, readU8, h1]
  · rfl

/-- C9: whenever a decoded server-info command announces a protocol
version different from `PROTOCOL_VERSION` (15), `update_server_info`
fails with an error whose message reports both the received and the
expected version numbers. -/
theorem server_info_protocol_mismatch (cmd : ServerCmdServerInfo)
    (h : cmd.protocol_version ≠ PROTOCOL_VERSION) :
    update_server_info cmd =
      .err (.other ("Incompatible protocol version (got " ++
        toString cmd.protocol_version ++ ", should be " ++
        toString PROTOCOL_VERSION ++ ")")) := by
  rw [update_server_info, if_pos h]

/-- Witness for C9 at received version 14. -/
theorem server_info_protocol_mismatch_witness :
    update_server_info
      { protocol_version := 14, max_clients := 8, game_type := 0,
        model_precache := [], sound_precache := [] } =
      .err (.other "Incompatible protocol version (got 14, should be 15)") := by
  have h := server_info_protocol_mismatch
    { protocol_version := 14, max_clients := 8, game_type := 0,
      model_precache := [], sound_precache := [] } (by decide)
  rw [h]
  rfl

lemma connectLoop_nonstop (target : Addr) (script : ℕ → RecvResult) (i : ℕ)
    (rest : List ℕ) (h : NonStop target (script i)) :
    connectLoop target script (i :: rest) =
      ((connectLoop target script rest).1, (connectLoop target script rest).2 + 1) := by
  rcases h with h | ⟨m, h⟩ | ⟨resp, a, hne, h⟩
  · simp [connectLoop, h]
  · simp [connectLoop, h]
  · simp [connectLoop, h, hne]

lemma connectLoop_stop (target : Addr) (script : ℕ → RecvResult) (i : ℕ)
    (rest : List ℕ) (resp : Response) (h : script i = .ok (some (resp, target))) :
    connectLoop target script (i :: rest) = (.ok (some resp), 1) := by
  simp [connectLoop, h]

/-- C1: if every one of the three attempts times out (`recv_response`
returns `Ok(None)`), `Client::connect` sends exactly 3 Connect requests
and then fails with the single recoverable "No response" condition (not
a per-attempt timeout error). -/
theorem connect_retry_bound (target : Addr) (script : ℕ → RecvResult)
    (h : ∀ i, i < MAX_CONNECT_ATTEMPTS → script i = .ok none) :
    Client.connect target script = (.error (.other "No response"), 3) := by
  have hr : List.range MAX_CONNECT_ATTEMPTS = [0, 1, 2] := rfl
  have hl : connectLoop target script (List.range MAX_CONNECT_ATTEMPTS) = (.ok none, 3) := by
    rw [hr, connectLoop_nonstop _ _ _ _ (Or.inl (h 0 (by decide))),
      connectLoop_nonstop _ _ _ _ (Or.inl (h 1 (by decide))),
      connectLoop_nonstop _ _ _ _ (Or.inl (h 2 (by decide)))]
    rfl
  simp [Client.connect, hl]

/-- Witness for C1: a script that always times out. -/
theorem connect_retry_bound_witness :
    Client.connect { host := 7, port := 26000 } (fun _ => .ok none) =
      (.error (.other "No response"), 3) :=
  connect_retry_bound _ _ (fun _ _ => rfl)

/-- C2 counterexample: with the server rejecting with message "Server is
full", the error produced by `Client::connect` carries the message
"Connection rejected: Server is full" — the server text is prefixed, so
the error does not carry exactly the text m; and the error is the same
generic `ClientError::Other` variant used for fatal failures. -/
theorem connect_reject_counterexample :
    (Client.connect { host := 7, port := 26000 }
        (fun _ => .ok (some (.reject "Server is full", { host := 7, port := 26000 })))).1 =
      .error (.other "Connection rejected: Server is full") ∧
    "Connection rejected: Server is full" ≠ "Server is full" := by
  constructor
  · rfl
  · decide

/-- C2 amended: a `Reject` response with message m from the target makes
`Client::connect` fail with `ClientError::Other` whose message is
"Connection rejected: " followed verbatim by m. -/
theorem connect_reject_message (target : Addr) (script : ℕ → RecvResult) (m : String)
    (h : script 0 = .ok (some (.reject m, target))) :
    (Client.connect target script).1 =
      .error (.other ("Connection rejected: " ++ m)) := by
  have hr : List.range MAX_CONNECT_ATTEMPTS = [0, 1, 2] := rfl
  have hl : connectLoop target script (List.range MAX_CONNECT_ATTEMPTS) =
      (.ok (some (.reject m)), 1) := by
    rw [hr, connectLoop_stop _ _ _ _ _ h]
  simp [Client.connect, hl]

/-- Witness for the amended C2 at m = "Server is full". -/
theorem connect_reject_message_witness :
    (Client.connect { host := 7, port := 26000 }
        (fun _ => .ok (some (.reject "Server is full", { host := 7, port := 26000 })))).1 =
      .error (.other ("Connection rejected: " ++ "Server is full")) :=
  connect_reject_message _ _ _ rfl

/-- C3: an `Accept` response from the target announcing port p yields,
for p within the 16-bit range [0, 65535], a session whose remote address
keeps the target's host but uses port p; for p outside that range the
handshake fails hard with "Invalid port number". -/
theorem connect_accept_port (target : Addr) (script : ℕ → RecvResult) (p : ℤ)
    (h : script 0 = .ok (some (.accept p, target))) :
    (0 ≤ p ∧ p ≤ 65535 →
      (Client.connect target script).1 =
        .ok { remote := { host := target.host, port := p.toNat } }) ∧
    (p < 0 ∨ 65535 < p →
      (Client.connect target script).1 = .error (.other "Invalid port number")) := by
  have hr : List.range MAX_CONNECT_ATTEMPTS = [0, 1, 2] := rfl
  have hl : connectLoop target script (List.range MAX_CONNECT_ATTEMPTS) =
      (.ok (some (.accept p)), 1) := by
    rw [hr, connectLoop_stop _ _ _ _ _ h]
  constructor
  · intro hp
    simp only [Client.connect, hl]
    rw [if_neg (by omega)]
  · intro hp
    simp only [Client.connect, hl]
    rw [if_pos hp]

/-- Witness for C3 with the spec's port 26001. -/
theorem connect_accept_port_witness :
    (Client.connect { host := 7, port := 26000 }
        (fun _ => .ok (some (.accept 26001, { host := 7, port := 26000 })))).1 =
      .ok { remote := { host := 7, port := 26001 } } :=
  (connect_accept_port { host := 7, port := 26000 } _ 26001 rfl).1 (by norm_num)

/-- C8: during the retry loop, attempts that time out, fail to parse, or
receive a well-formed response from an address different from the target
never produce an accepted response (if all 3 attempts are such, the loop
ends with no response after 3 sends); and a well-formed response from
exactly the target address at attempt i stops the loop immediately
(i + 1 requests sent) with that response adopted as final. -/
theorem connect_response_filtering (target : Addr) (script : ℕ → RecvResult) :
    ((∀ i, i < MAX_CONNECT_ATTEMPTS → NonStop target (script i)) →
      connectLoop target script (List.range MAX_CONNECT_ATTEMPTS) = (.ok none, 3)) ∧
    (∀ i, i < MAX_CONNECT_ATTEMPTS → (∀ j, j < i → NonStop target (script j)) →
      ∀ resp, script i = .ok (some (resp, target)) →
        connectLoop target script (List.range MAX_CONNECT_ATTEMPTS) =
          (.ok (some resp), i + 1)) := by
  have hr : List.range MAX_CONNECT_ATTEMPTS = [0, 1, 2] := rfl
  constructor
  · intro h
    rw [hr, connectLoop_nonstop _ _ _ _ (h 0 (by decide)),
      connectLoop_nonstop _ _ _ _ (h 1 (by decide)),
      connectLoop_nonstop _ _ _ _ (h 2 (by decide))]
    rfl
  · intro i hi hj resp hresp
    have hi3 : i < 3 := hi
    interval_cases i
    · rw [hr, connectLoop_stop _ _ _ _ _ hresp]
    · rw [hr, connectLoop_nonstop _ _ _ _ (hj 0 (by norm_num)),
        connectLoop_stop _ _ _ _ _ hresp]
    · rw [hr, connectLoop_nonstop _ _ _ _ (hj 0 (by norm_num)),
        connectLoop_nonstop _ _ _ _ (hj 1 (by norm_num)),
        connectLoop_stop _ _ _ _ _ hresp]

/-- Witness for C8: a spoofed response from a wrong address at attempt 0
is discarded, and the genuine response at attempt 1 is adopted after
exactly 2 sends. -/
theorem connect_response_filtering_witness :
    connectLoop { host := 7, port := 26000 }
      (fun i => if i = 0 then .ok (some (.reject "spoof", { host := 9, port := 1 }))
        else .ok (some (.accept 26001, { host := 7, port := 26000 })))
      (List.range MAX_CONNECT_ATTEMPTS) = (.ok (some (.accept 26001)), 2) :=
  (connect_response_filtering _ _).2 1 (by decide)
    (fun j hj => by
      interval_cases j
      exact Or.inr (Or.inr ⟨.reject "spoof", { host := 9, port := 1 }, by decide, rfl⟩))
    (.accept 26001) rfl
